import Mathlib

/-!
Verification of the AcroForm field scraper and form merger of gopdf
(src/gin-server.go) against its natural-language specification.

The embedding mirrors the Go source.  PDF dictionaries are Go maps, i.e.
mutable reference types: we model them as references (`Nat`) into an
explicit heap, so that aliasing and in-place mutation behave exactly as in
Go.  Each document (`Ctx`, after pdfcpu's `*pdfcpu.Context`) carries its
own cross-reference table mapping (object number, generation number) to a
stored object, plus a reference to its catalog dictionary.  Arrays are Go
slices that the source always stores back explicitly after `append`, so
plain lists suffice for them.  Fallible operations return `Except Err`.
-/

namespace GoPdf

/-- The PDF object model (pdfcpu's `Object` union) as used by the source:
dictionaries are heap references, arrays are ordered lists, plus names,
strings, integers, booleans, indirect references and the nil object. -/
inductive Obj where
  | dict (r : Nat)
  | arr (elems : List Obj)
  | name (s : String)
  | str (s : String)
  | int (i : Int)
  | bool (b : Bool)
  | ref (num gen : Nat)
  | null

/-- Errors surfaced by the engine operations and by the merger / scraper.
`runtimePanic` marks a spot where the Go source would panic at runtime
(a failed type assertion, or a write into a nil map). -/
inductive Err where
  | catalogUnavailable
  | derefFailed
  | notADict
  | notAnArray
  | notAnInteger
  | notABoolean
  | runtimePanic
deriving DecidableEq

/-- A dictionary body: an association list from name-keys to objects
(one binding per key, as in a Go map). -/
abbrev DictVal := List (String × Obj)

/-- The heap of allocated dictionaries: reference number to body. -/
abbrev Heap := List (Nat × DictVal)

/-- Read a dictionary body from the heap. -/
def hGet : Heap → Nat → Option DictVal
  | [], _ => none
  | (r', d) :: rest, r => if r' = r then some d else hGet rest r

/-- Replace the body of an existing heap dictionary (Go mutates the map
in place; a reference that is not allocated is left alone). -/
def hSet : Heap → Nat → DictVal → Heap
  | [], _, _ => []
  | (r', d') :: rest, r, d => if r' = r then (r, d) :: rest else (r', d') :: hSet rest r d

/-- Look up a key in a dictionary body (Go `d[k]` read / `Dict.Find`). -/
def dGet : DictVal → String → Option Obj
  | [], _ => none
  | (k', v) :: rest, k => if k' = k then some v else dGet rest k

/-- Set a key in a dictionary body (Go `d[k] = v` / `Dict.Update`). -/
def dSet : DictVal → String → Obj → DictVal
  | [], k, v => [(k, v)]
  | (k', v') :: rest, k, v => if k' = k then (k, v) :: rest else (k', v') :: dSet rest k v

/-- Delete a key from a dictionary body (Go `delete(d, k)`). -/
def dDel : DictVal → String → DictVal
  | [], _ => []
  | (k', v') :: rest, k => if k' = k then dDel rest k else (k', v') :: dDel rest k

/-- Find a key of the heap dictionary `r` (Go `d.Find(k)` where `d` is the
map behind reference `r`). -/
def dFind (h : Heap) (r : Nat) (k : String) : Option Obj :=
  (hGet h r).bind (fun d => dGet d k)

/-- Write a key of the heap dictionary `r` (Go `d[k] = v`). -/
def dSetKey (h : Heap) (r : Nat) (k : String) (v : Obj) : Heap :=
  match hGet h r with
  | some d => hSet h r (dSet d k v)
  | none => h

/-- Delete a key of the heap dictionary `r` (Go `delete(d, k)`). -/
def dDelKey (h : Heap) (r : Nat) (k : String) : Heap :=
  match hGet h r with
  | some d => hSet h r (dDel d k)
  | none => h

/-- Number of entries of the heap dictionary `r` (Go `len(d)`). -/
def dictLen (h : Heap) (r : Nat) : Nat :=
  ((hGet h r).getD []).length

/-- A parsed document: its cross-reference table, keyed by object and
generation number, and the heap reference of its catalog dictionary. -/
structure Ctx where
  table : List ((Nat × Nat) × Obj)
  root : Nat

/-- Table lookup for an indirect reference (pdfcpu
`Context.FindTableEntryForIndRef`, yielding the entry's stored object). -/
def findTableEntryForIndRef (ctx : Ctx) (num gen : Nat) : Option Obj :=
  (ctx.table.find? (fun p => p.1.1 = num && p.1.2 = gen)).map (fun p => p.2)

/-- Engine operation `catalog(document)` (pdfcpu `Context.Catalog`):
the catalog dictionary of a document, an error when it is unavailable. -/
def catalog (ctx : Ctx) (h : Heap) : Except Err Nat :=
  match hGet h ctx.root with
  | some _ => .ok ctx.root
  | none => .error .catalogUnavailable

/-- Engine operation `dereference` (pdfcpu `XRefTable.Dereference`):
resolve one level of indirect reference against the document's own table;
idempotent on concrete objects. -/
def dereference (ctx : Ctx) (o : Obj) : Except Err Obj :=
  match o with
  | .ref n g =>
    match findTableEntryForIndRef ctx n g with
    | some e => .ok e
    | none => .error .derefFailed
  | _ => .ok o

/-- pdfcpu `XRefTable.DereferenceDict`: dereference, then require a
dictionary; the nil object yields a nil dictionary (`none`). -/
def dereferenceDict (ctx : Ctx) (o : Obj) : Except Err (Option Nat) :=
  match dereference ctx o with
  | .error e => .error e
  | .ok .null => .ok none
  | .ok (.dict r) => .ok (some r)
  | .ok _ => .error .notADict

/-- pdfcpu `XRefTable.DereferenceArray`: dereference, then require an
array; the nil object yields a nil array (`none`). -/
def dereferenceArray (ctx : Ctx) (o : Obj) : Except Err (Option (List Obj)) :=
  match dereference ctx o with
  | .error e => .error e
  | .ok .null => .ok none
  | .ok (.arr xs) => .ok (some xs)
  | .ok _ => .error .notAnArray

/-- pdfcpu `XRefTable.DereferenceInteger`.  Note that the Go function
returns a pointer to a fresh `Integer` copy produced by a type assertion,
never a pointer into a dictionary or table. -/
def dereferenceInteger (ctx : Ctx) (o : Obj) : Except Err (Option Int) :=
  match dereference ctx o with
  | .error e => .error e
  | .ok .null => .ok none
  | .ok (.int i) => .ok (some i)
  | .ok _ => .error .notAnInteger

/-- pdfcpu `XRefTable.DereferenceBoolean`. -/
def dereferenceBoolean (ctx : Ctx) (o : Obj) : Except Err (Option Bool) :=
  match dereference ctx o with
  | .error e => .error e
  | .ok .null => .ok none
  | .ok (.bool b) => .ok (some b)
  | .ok _ => .error .notABoolean

/-- pdfcpu `Dict.StringEntry`: the string value under a key; `none` when
absent or not a string.  No dereferencing happens here. -/
def stringEntry (h : Heap) (r : Nat) (k : String) : Option String :=
  match dFind h r k with
  | some (.str s) => some s
  | _ => none

/-- pdfcpu `Dict.IntEntry`: the integer value under a key; no deref. -/
def intEntry (h : Heap) (r : Nat) (k : String) : Option Int :=
  match dFind h r k with
  | some (.int i) => some i
  | _ => none

/-- pdfcpu `Dict.NameEntry`: the name value under a key; no deref. -/
def nameEntry (h : Heap) (r : Nat) (k : String) : Option String :=
  match dFind h r k with
  | some (.name s) => some s
  | _ => none

/-- pdfcpu `Dict.ArrayEntry`: the array under a key; the nil array when
absent or not an array.  No dereferencing happens here. -/
def arrayEntry (h : Heap) (r : Nat) (k : String) : List Obj :=
  match dFind h r k with
  | some (.arr xs) => xs
  | _ => []

/-! ## Form Merger (`mergeAcroForms` and the attribute handlers) -/

/-- Go `handleNeedAppearances`: if the source form's `NeedAppearances`
dereferences to true, force the destination's to true. -/
def handleNeedAppearances (ctxSource : Ctx) (dSrc dDest : Nat) (h : Heap) : Except Err Heap :=
  match dFind h dSrc "NeedAppearances" with
  | none => .ok h
  | some .null => .ok h
  | some o =>
    match dereferenceBoolean ctxSource o with
    | .error e => .error e
    | .ok (some true) => .ok (dSetKey h dDest "NeedAppearances" (.bool true))
    | .ok _ => .ok h

/-- Go `handleSigFields`.  The source's `SigFields` integer is looked up;
the destination is probed under the key `SigFlags` and, when that key is
absent or nil, the source integer is stored under the key `SigFields`.
When both integers are present the Go code executes
`*iDest |= 1` / `*iDest |= 2`, but `iDest` points at a fresh `Integer`
copy produced by `DereferenceInteger`'s type assertion, so those writes
never reach the destination dictionary or table: the heap is unchanged. -/
def handleSigFields (ctxSource ctxDest : Ctx) (dSrc dDest : Nat) (h : Heap) : Except Err Heap :=
  match dFind h dSrc "SigFields" with
  | none => .ok h
  | some o =>
    match dereferenceInteger ctxSource o with
    | .error e => .error e
    | .ok none => .ok h
    | .ok (some iSrc) =>
      match dFind h dDest "SigFlags" with
      | none => .ok (dSetKey h dDest "SigFields" (.int iSrc))
      | some o2 =>
        match dereferenceInteger ctxDest o2 with
        | .error e => .error e
        | .ok none => .ok (dSetKey h dDest "SigFields" (.int iSrc))
        | .ok (some _) => .ok h

/-- Go `handleCO`: copy the source calculation-order array when the
destination has none or an empty one; otherwise append source entries. -/
def handleCO (ctxSource ctxDest : Ctx) (dSrc dDest : Nat) (h : Heap) : Except Err Heap :=
  match dFind h dSrc "CO" with
  | none => .ok h
  | some o =>
    match dereferenceArray ctxSource o with
    | .error e => .error e
    | .ok arrSrcOpt =>
      match dFind h dDest "CO" with
      | none => .ok (dSetKey h dDest "CO" (.arr (arrSrcOpt.getD [])))
      | some o2 =>
        match dereferenceArray ctxDest o2 with
        | .error e => .error e
        | .ok arrDestOpt =>
          if (arrDestOpt.getD []).length = 0 then
            .ok (dSetKey h dDest "CO" (.arr (arrSrcOpt.getD [])))
          else .ok (dSetKey h dDest "CO" (.arr (arrDestOpt.getD [] ++ arrSrcOpt.getD [])))

/-- Go `handleDR`.  In the branch where the destination already has a
`DR` entry, the Go code shadows `dDest` with the dereferenced `DR`
dictionary; when that inner dictionary is empty, `dDest["DR"] = dSrc`
therefore writes the source resources under the key `DR` inside the inner
dictionary, not onto the AcroForm dictionary.  When the inner dictionary
is the nil dictionary the same write would hit a nil map and panic. -/
def handleDR (ctxSource ctxDest : Ctx) (dSrc dDest : Nat) (h : Heap) : Except Err Heap :=
  match dFind h dSrc "DR" with
  | none => .ok h
  | some o =>
    match dereferenceDict ctxSource o with
    | .error e => .error e
    | .ok none => .ok h
    | .ok (some drSrc) =>
      if dictLen h drSrc = 0 then .ok h
      else
        match dFind h dDest "DR" with
        | none => .ok (dSetKey h dDest "DR" (.dict drSrc))
        | some o2 =>
          match dereferenceDict ctxDest o2 with
          | .error e => .error e
          | .ok none => .error .runtimePanic
          | .ok (some drDest) =>
            if dictLen h drDest = 0 then .ok (dSetKey h drDest "DR" (.dict drSrc))
            else .ok h

/-- The `for _, o := range arrFieldsSrc` loop of Go `handleDA`: push the
source form's default appearance down onto every source text field
(`FT` is the name `Tx`) lacking its own `DA` entry. -/
def pushDownDA (ctxSource : Ctx) (sSrc : String) : List Obj → Heap → Except Err Heap
  | [], h => .ok h
  | o :: rest, h =>
    match dereferenceDict ctxSource o with
    | .error e => .error e
    | .ok none => pushDownDA ctxSource sSrc rest h
    | .ok (some r) =>
      match nameEntry h r "FT" with
      | none => pushDownDA ctxSource sSrc rest h
      | some n =>
        if n = "Tx" then
          match dFind h r "DA" with
          | none => pushDownDA ctxSource sSrc rest (dSetKey h r "DA" (.str sSrc))
          | some _ => pushDownDA ctxSource sSrc rest h
        else pushDownDA ctxSource sSrc rest h

/-- Go `handleDA`: skip when the source form has no or an empty `DA`;
adopt it when the destination form has none; otherwise leave the
destination's `DA` alone and push the source's down onto source fields. -/
def handleDA (ctxSource : Ctx) (dSrc dDest : Nat) (arrFieldsSrc : List Obj) (h : Heap) :
    Except Err Heap :=
  match stringEntry h dSrc "DA" with
  | none => .ok h
  | some sSrc =>
    if sSrc.length = 0 then .ok h
    else
      match stringEntry h dDest "DA" with
      | none => .ok (dSetKey h dDest "DA" (.str sSrc))
      | some _ => pushDownDA ctxSource sSrc arrFieldsSrc h

/-- The `for _, o := range arrFieldsSrc` loop of Go `handleQ`. -/
def pushDownQ (ctxSource : Ctx) (iSrc : Int) : List Obj → Heap → Except Err Heap
  | [], h => .ok h
  | o :: rest, h =>
    match dereferenceDict ctxSource o with
    | .error e => .error e
    | .ok none => pushDownQ ctxSource iSrc rest h
    | .ok (some r) =>
      match nameEntry h r "FT" with
      | none => pushDownQ ctxSource iSrc rest h
      | some n =>
        if n = "Tx" then
          match dFind h r "Q" with
          | none => pushDownQ ctxSource iSrc rest (dSetKey h r "Q" (.int iSrc))
          | some _ => pushDownQ ctxSource iSrc rest h
        else pushDownQ ctxSource iSrc rest h

/-- Go `handleQ`: symmetric to `handleDA` for the quadding integer. -/
def handleQ (ctxSource : Ctx) (dSrc dDest : Nat) (arrFieldsSrc : List Obj) (h : Heap) :
    Except Err Heap :=
  match intEntry h dSrc "Q" with
  | none => .ok h
  | some iSrc =>
    match intEntry h dDest "Q" with
    | none => .ok (dSetKey h dDest "Q" (.int iSrc))
    | some _ => pushDownQ ctxSource iSrc arrFieldsSrc h

/-- Go `handleFormAttributes`: the fixed sequence of attribute merges;
any handler error aborts; when all succeed, `XFA` is deleted from the
destination AcroForm dictionary as the final step. -/
def handleFormAttributes (ctxSource ctxDest : Ctx) (dSrc dDest : Nat)
    (arrFieldsSrc : List Obj) (h : Heap) : Except Err Heap :=
  match handleNeedAppearances ctxSource dSrc dDest h with
  | .error e => .error e
  | .ok h1 =>
    match handleSigFields ctxSource ctxDest dSrc dDest h1 with
    | .error e => .error e
    | .ok h2 =>
      match handleCO ctxSource ctxDest dSrc dDest h2 with
      | .error e => .error e
      | .ok h3 =>
        match handleDR ctxSource ctxDest dSrc dDest h3 with
        | .error e => .error e
        | .ok h4 =>
          match handleDA ctxSource dSrc dDest arrFieldsSrc h4 with
          | .error e => .error e
          | .ok h5 =>
            match handleQ ctxSource dSrc dDest arrFieldsSrc h5 with
            | .error e => .error e
            | .ok h6 => .ok (dDelKey h6 dDest "XFA")

/-- Go `mergeAcroForms(ctxSource, ctxDest)`: merge the source document's
AcroForm into the destination's, mutating the destination in place.
The source `Fields` entry is dereferenced with `ctxDest.DereferenceArray`
(the destination's table), exactly as in the source (line 323). -/
def mergeAcroForms (ctxSource ctxDest : Ctx) (h : Heap) : Except Err Heap :=
  match catalog ctxDest h with
  | .error e => .error e
  | .ok rootDictDest =>
    match catalog ctxSource h with
    | .error e => .error e
    | .ok rootDictSource =>
      match dFind h rootDictSource "AcroForm" with
      | none => .ok h
      | some o =>
        match dereferenceDict ctxSource o with
        | .error e => .error e
        | .ok none => .ok h
        | .ok (some dSrc) =>
          if dictLen h dSrc = 0 then .ok h
          else
            match dFind h dSrc "Fields" with
            | none => .ok h
            | some oF =>
              match dereferenceArray ctxDest oF with
              | .error e => .error e
              | .ok arrFieldsSrcOpt =>
                if (arrFieldsSrcOpt.getD []).length = 0 then .ok h
                else
                  match dFind h rootDictDest "AcroForm" with
                  | none => .ok (dSetKey h rootDictDest "AcroForm" (.dict dSrc))
                  | some oD =>
                    match dereferenceDict ctxDest oD with
                    | .error e => .error e
                    | .ok none => .ok (dSetKey h rootDictDest "AcroForm" (.dict dSrc))
                    | .ok (some dDest) =>
                      if dictLen h dDest = 0 then
                        .ok (dSetKey h rootDictDest "AcroForm" (.dict dSrc))
                      else
                        match dFind h dDest "Fields" with
                        | none => .ok (dSetKey h rootDictDest "AcroForm" (.dict dSrc))
                        | some oFD =>
                          match dereferenceArray ctxDest oFD with
                          | .error e => .error e
                          | .ok arrFieldsDestOpt =>
                            if (arrFieldsDestOpt.getD []).length = 0 then
                              .ok (dSetKey h rootDictDest "AcroForm" (.dict dSrc))
                            else
                              handleFormAttributes ctxSource ctxDest dSrc dDest
                                (arrFieldsSrcOpt.getD [])
                                (dSetKey h dDest "Fields"
                                  (.arr (arrFieldsDestOpt.getD [] ++ arrFieldsSrcOpt.getD [])))

/-! ## Field Scraper (`getAcro` and the loop of `scrape`) -/

/-- Outcome of the `for i, o := range fields` loop of Go `getAcro`:
either some `return 0` statement inside the loop fired (`aborted`, with
the heap and name list at that moment), or the loop ran to completion. -/
inductive LoopRes where
  | aborted (h : Heap) (names : List String)
  | completed (h : Heap) (names : List String)

/-- The field loop of Go `getAcro`.  Each element must be an indirect
reference (the unchecked type assertion `o.(pdfcpu.IndirectRef)` panics
otherwise); a missing table entry, a non-dictionary entry object, or a
missing `T` string entry each make the whole function `return 0`.
A successful field appends its name and sets `V` to the string
`"STUFF!"` via `d.Update`. -/
def getAcroLoop (ctx : Ctx) : List Obj → Heap → List String → Except Err LoopRes
  | [], h, names => .ok (.completed h names)
  | o :: rest, h, names =>
    match o with
    | .ref n g =>
      match findTableEntryForIndRef ctx n g with
      | none => .ok (.aborted h names)
      | some e =>
        match e with
        | .dict r =>
          match stringEntry h r "T" with
          | none => .ok (.aborted h names)
          | some t => getAcroLoop ctx rest (dSetKey h r "V" (.str "STUFF!")) (names ++ [t])
        | _ => .ok (.aborted h names)
    | _ => .error .runtimePanic

/-- The `Fields` array the Go `getAcro` iterates over: `ArrayEntry` on
the dereferenced AcroForm dictionary, where a read on the nil dictionary
yields the nil array. -/
def acroFieldsArray (h : Heap) (adictOpt : Option Nat) : List Obj :=
  match adictOpt with
  | none => []
  | some adict => arrayEntry h adict "Fields"

/-- Result of Go `getAcro`: the heap after any field mutations, the
accumulated field-name list (`*acro_fields`), the write operations
performed (`pdfcpu.Write` with the `DirName`/`FileName` set on the
context), and the function's return code. -/
structure AcroOut where
  heap : Heap
  names : List String
  writes : List (String × String)
  ret : Nat

/-- Go `getAcro(idx, source, acro_fields)`.  `src = none` models a failed
`api.ReadContext` (logged, `return 0`).  Catalog failure, a missing
`AcroForm` key and a dereference failure each also `return 0` with
nothing written.  Only when the field loop runs to completion does the
function set `ctx.Write.DirName = "."`, `ctx.Write.FileName =
"tezzting.pdf"`, call `pdfcpu.Write(ctx)` and `return 1`. -/
def getAcro (src : Option Ctx) (h : Heap) (acroFields : List String) : Except Err AcroOut :=
  match src with
  | none => .ok ⟨h, acroFields, [], 0⟩
  | some ctx =>
    match catalog ctx h with
    | .error _ => .ok ⟨h, acroFields, [], 0⟩
    | .ok cat =>
      match dFind h cat "AcroForm" with
      | none => .ok ⟨h, acroFields, [], 0⟩
      | some o =>
        match dereferenceDict ctx o with
        | .error _ => .ok ⟨h, acroFields, [], 0⟩
        | .ok adictOpt =>
          match getAcroLoop ctx (acroFieldsArray h adictOpt) h acroFields with
          | .error e => .error e
          | .ok (.aborted h1 ns) => .ok ⟨h1, ns, [], 0⟩
          | .ok (.completed h1 ns) => .ok ⟨h1, ns, [(".", "tezzting.pdf")], 1⟩

/-- One input of the batch loop of Go `scrape`: `os.Open` failure,
`api.Validate` failure, or an opened file handed to `getAcro` (whose
`api.ReadContext` outcome is the inner `Option Ctx`). -/
inductive InputFile where
  | openFail
  | invalid
  | file (src : Option Ctx)

/-- The `for idx, f := range files_list` loop of Go `scrape`: open and
validation failures are reported and the loop continues; otherwise
`getAcro` runs against the shared `acro_fields` accumulator, and the loop
continues regardless of its 0/1 result. -/
def scrapeLoop : List InputFile → Heap → List String →
    Except Err (Heap × List String × List (String × String))
  | [], h, names => .ok (h, names, [])
  | f :: rest, h, names =>
    match f with
    | .openFail => scrapeLoop rest h names
    | .invalid => scrapeLoop rest h names
    | .file src =>
      match getAcro src h names with
      | .error e => .error e
      | .ok out =>
        match scrapeLoop rest out.heap out.names with
        | .error e => .error e
        | .ok (h2, ns2, ws2) => .ok (h2, ns2, out.writes ++ ws2)

/-- Go `scrape`: the batch starts from an empty `acro_fields` list. -/
def scrape (files : List InputFile) (h : Heap) :
    Except Err (Heap × List String × List (String × String)) :=
  scrapeLoop files h []

/-- A field element at which Go `getAcro` fires one of its three in-loop
`return 0` statements: an indirect reference with no table entry, a
table entry that is not a dictionary, or a field dictionary without a
`T` string entry. -/
def fieldAnomaly (ctx : Ctx) (h : Heap) (o : Obj) : Bool :=
  match o with
  | .ref n g =>
    match findTableEntryForIndRef ctx n g with
    | none => true
    | some (.dict r) => (stringEntry h r "T").isNone
    | some _ => true
  | _ => false

/-! ## Concrete documents used as test fixtures

Each group below is one small object graph: a heap of dictionaries plus
one context (cross-reference table and catalog reference) per document.
The `...out` definitions extract the heap an operation produces, so that
theorems can state plain equalities about it. -/

/-- Fixture for C1: destination AcroForm (dict 1) with `SigFlags = 2` and
one field; source AcroForm (dict 3) with `SigFields = 1` and one field. -/
def hC1 : Heap :=
  [(0, [("AcroForm", .dict 1)]),
   (1, [("Fields", .arr [.ref 10 0]), ("SigFlags", .int 2)]),
   (2, [("AcroForm", .dict 3)]),
   (3, [("Fields", .arr [.ref 20 0]), ("SigFields", .int 1)]),
   (4, [("T", .str "f1")]),
   (5, [("T", .str "f2")])]

def ctxC1s : Ctx := ⟨[((20, 0), .dict 5)], 2⟩

def ctxC1d : Ctx := ⟨[((10, 0), .dict 4)], 0⟩

def hC1out : Heap :=
  match mergeAcroForms ctxC1s ctxC1d hC1 with
  | .ok hh => hh
  | .error _ => []

/-- Fixture for C2: a document whose first field reference (10, 0) has no
table entry while its second field (11, 0) is well-formed with name
`"good"`. -/
def hC2 : Heap :=
  [(0, [("AcroForm", .dict 1)]),
   (1, [("Fields", .arr [.ref 10 0, .ref 11 0])]),
   (5, [("T", .str "good")])]

def ctxC2 : Ctx := ⟨[((11, 0), .dict 5)], 0⟩

/-- Fixture for the C3 counterexample: destination AcroForm (dict 1) with
fields and an `XFA` entry; the source document (catalog dict 2) has no
`AcroForm` at all. -/
def hC3 : Heap :=
  [(0, [("AcroForm", .dict 1)]),
   (1, [("Fields", .arr [.ref 10 0]), ("XFA", .str "xfa-data")]),
   (2, [("Type", .name "Catalog")])]

def ctxC3s : Ctx := ⟨[], 2⟩

def ctxC3d : Ctx := ⟨[], 0⟩

/-- Fixture for the C3 witness: destination AcroForm with an `XFA` entry
and a field, source AcroForm with a field — the full-merge path runs. -/
def hC3w : Heap :=
  [(0, [("AcroForm", .dict 1)]),
   (1, [("Fields", .arr [.ref 10 0]), ("XFA", .str "xfa-data")]),
   (2, [("AcroForm", .dict 3)]),
   (3, [("Fields", .arr [.ref 20 0])])]

def ctxC3ws : Ctx := ⟨[], 2⟩

def ctxC3wd : Ctx := ⟨[], 0⟩

def hC3wOut : Heap :=
  match mergeAcroForms ctxC3ws ctxC3wd hC3w with
  | .ok hh => hh
  | .error _ => []

/-- Fixture for C4: the source AcroForm's `Fields` entry is the indirect
reference (7, 0), resolvable only in the source document's table; the
destination's table has no entry (7, 0). -/
def hC4 : Heap :=
  [(0, [("AcroForm", .dict 1)]),
   (1, [("Fields", .arr [.ref 10 0])]),
   (2, [("AcroForm", .dict 3)]),
   (3, [("Fields", .ref 7 0)])]

def ctxC4s : Ctx := ⟨[((7, 0), .arr [.ref 20 0])], 2⟩

def ctxC4d : Ctx := ⟨[((10, 0), .dict 4)], 0⟩

/-- Fixture for the C5 witness: one destination field, one source field,
both AcroForm dictionaries otherwise minimal. -/
def hC5 : Heap :=
  [(0, [("AcroForm", .dict 1)]),
   (1, [("Fields", .arr [.ref 10 0])]),
   (2, [("AcroForm", .dict 3)]),
   (3, [("Fields", .arr [.ref 20 0])])]

def ctxC5s : Ctx := ⟨[], 2⟩

def ctxC5d : Ctx := ⟨[], 0⟩

def hC5out : Heap :=
  match mergeAcroForms ctxC5s ctxC5d hC5 with
  | .ok hh => hh
  | .error _ => []

/-- Fixture for C6: destination AcroForm (dict 1) whose `DR` entry is the
empty dictionary 6; source AcroForm (dict 3) with the non-empty `DR`
dictionary 7. -/
def hC6 : Heap :=
  [(1, [("Fields", .arr [.ref 10 0]), ("DR", .dict 6)]),
   (3, [("Fields", .arr [.ref 20 0]), ("DR", .dict 7)]),
   (6, []),
   (7, [("Font", .name "F1")])]

def ctxC6s : Ctx := ⟨[], 9⟩

def ctxC6d : Ctx := ⟨[], 9⟩

def hC6out : Heap :=
  match handleDR ctxC6s ctxC6d 3 1 hC6 with
  | .ok hh => hh
  | .error _ => []

/-- Fixture for C7: a single well-formed document with one named field,
scraped with no writer intent whatsoever. -/
def hC7 : Heap :=
  [(0, [("AcroForm", .dict 1)]),
   (1, [("Fields", .arr [.ref 10 0])]),
   (4, [("T", .str "name1")])]

def ctxC7 : Ctx := ⟨[((10, 0), .dict 4)], 0⟩

def outC7 : AcroOut :=
  match getAcro (some ctxC7) hC7 [] with
  | .ok o => o
  | .error _ => ⟨[], [], [], 0⟩

/-- Fixture for the C8 witness: a destination with a populated AcroForm
and a source document whose catalog has no `AcroForm` key. -/
def hC8 : Heap :=
  [(0, [("AcroForm", .dict 1)]),
   (1, [("Fields", .arr [.ref 10 0])]),
   (2, [("Type", .name "Catalog")])]

def ctxC8s : Ctx := ⟨[], 2⟩

def ctxC8d : Ctx := ⟨[], 0⟩

/-- Fixture for C9, the spec's end-to-end scenario: destination AcroForm
with `Fields=[f1]` and `DA="/Helv 0 Tf 0 g"`, no `Q`; source AcroForm
with `Fields=[f2]`, `DA="/Cour 0 Tf 0 g"` and `Q=1`, where f2 (dict 5)
has `FT=Tx` and no own `DA`. -/
def hC9 : Heap :=
  [(0, [("AcroForm", .dict 1)]),
   (1, [("Fields", .arr [.ref 10 0]), ("DA", .str "/Helv 0 Tf 0 g")]),
   (2, [("AcroForm", .dict 3)]),
   (3, [("Fields", .arr [.ref 20 0]), ("DA", .str "/Cour 0 Tf 0 g"), ("Q", .int 1)]),
   (4, [("T", .str "f1")]),
   (5, [("FT", .name "Tx"), ("T", .str "f2")])]

def ctxC9s : Ctx := ⟨[((20, 0), .dict 5)], 2⟩

def ctxC9d : Ctx := ⟨[((10, 0), .dict 4)], 0⟩

def hC9out : Heap :=
  match mergeAcroForms ctxC9s ctxC9d hC9 with
  | .ok hh => hh
  | .error _ => []

/-- Fixture for the C10 witness: first field (12, 0) is well-formed with
name `"a"`; the second field reference (13, 0) has no table entry. -/
def hC10 : Heap :=
  [(0, [("AcroForm", .dict 1)]),
   (1, [("Fields", .arr [.ref 12 0, .ref 13 0])]),
   (6, [("T", .str "a")])]

def ctxC10 : Ctx := ⟨[((12, 0), .dict 6)], 0⟩

/-! ## Basic lemmas about the heap and dictionary operations -/

theorem dGet_dSet_self (d : DictVal) (k : String) (v : Obj) :
    dGet (dSet d k v) k = some v := by
  induction d with
  | nil => simp [dSet, dGet]
  | cons p rest ih =>
    obtain ⟨k', v'⟩ := p
    by_cases hk : k' = k
    · subst hk; simp [dSet, dGet]
    · simp [dSet, dGet, hk, ih]

theorem dGet_dSet_ne (d : DictVal) (k k' : String) (v : Obj) (hne : k' ≠ k) :
    dGet (dSet d k' v) k = dGet d k := by
  induction d with
  | nil => simp [dSet, dGet, hne]
  | cons p rest ih =>
    obtain ⟨k0, v0⟩ := p
    by_cases hk : k0 = k'
    · subst hk; simp [dSet, dGet, hne, ih]
    · by_cases hk2 : k0 = k
      · subst hk2; simp [dSet, dGet, hk]
      · simp [dSet, dGet, hk, hk2, ih]

theorem dGet_dDel_self (d : DictVal) (k : String) :
    dGet (dDel d k) k = none := by
  induction d with
  | nil => simp [dDel, dGet]
  | cons p rest ih =>
    obtain ⟨k0, v0⟩ := p
    by_cases hk : k0 = k
    · simp [dDel, hk, ih]
    · simp [dDel, dGet, hk, ih]

theorem dGet_dDel_ne (d : DictVal) (k k' : String) (hne : k' ≠ k) :
    dGet (dDel d k') k = dGet d k := by
  induction d with
  | nil => simp [dDel]
  | cons p rest ih =>
    obtain ⟨k0, v0⟩ := p
    by_cases hk : k0 = k'
    · subst hk; simp [dDel, dGet, hne, ih]
    · by_cases hk2 : k0 = k
      · subst hk2; simp [dDel, dGet, hk]
      · simp [dDel, dGet, hk, hk2, ih]

theorem hGet_hSet_self (h : Heap) (r : Nat) (d0 d : DictVal) (h0 : hGet h r = some d0) :
    hGet (hSet h r d) r = some d := by
  induction h with
  | nil => simp [hGet] at h0
  | cons p rest ih =>
    obtain ⟨r0, e0⟩ := p
    by_cases hr : r0 = r
    · subst hr; simp [hSet, hGet]
    · simp [hGet, hr] at h0
      simp [hSet, hGet, hr, ih h0]

theorem hGet_hSet_ne (h : Heap) (r r' : Nat) (d : DictVal) (hne : r' ≠ r) :
    hGet (hSet h r' d) r = hGet h r := by
  induction h with
  | nil => simp [hSet]
  | cons p rest ih =>
    obtain ⟨r0, e0⟩ := p
    by_cases hr : r0 = r'
    · subst hr; simp [hSet, hGet, hne, ih]
    · by_cases hr2 : r0 = r
      · subst hr2; simp [hSet, hGet, hr]
      · simp [hSet, hGet, hr, hr2, ih]

theorem dFind_dSetKey_self (h : Heap) (r : Nat) (k : String) (v : Obj) (d0 : DictVal)
    (h0 : hGet h r = some d0) :
    dFind (dSetKey h r k v) r k = some v := by
  unfold dSetKey
  rw [h0]
  unfold dFind
  rw [hGet_hSet_self h r d0 _ h0]
  simp [dGet_dSet_self]

theorem dFind_dSetKey_ne_key (h : Heap) (r r' : Nat) (k k' : String) (v : Obj)
    (hne : k' ≠ k) :
    dFind (dSetKey h r' k' v) r k = dFind h r k := by
  unfold dSetKey
  cases h0 : hGet h r' with
  | none => rfl
  | some d0 =>
    unfold dFind
    by_cases hr : r' = r
    · subst hr
      rw [hGet_hSet_self h r' d0 _ h0, h0]
      simp [dGet_dSet_ne _ _ _ _ hne]
    · rw [hGet_hSet_ne h r r' _ hr]

theorem dFind_dDelKey_self (h : Heap) (r : Nat) (k : String) :
    dFind (dDelKey h r k) r k = none := by
  unfold dDelKey
  cases h0 : hGet h r with
  | none => simp [dFind, h0]
  | some d0 =>
    unfold dFind
    rw [hGet_hSet_self h r d0 _ h0]
    simp [dGet_dDel_self]

theorem dFind_dDelKey_ne_key (h : Heap) (r r' : Nat) (k k' : String) (hne : k' ≠ k) :
    dFind (dDelKey h r' k') r k = dFind h r k := by
  unfold dDelKey
  cases h0 : hGet h r' with
  | none => rfl
  | some d0 =>
    unfold dFind
    by_cases hr : r' = r
    · subst hr
      rw [hGet_hSet_self h r' d0 _ h0, h0]
      simp [dGet_dDel_ne _ _ _ hne]
    · rw [hGet_hSet_ne h r r' _ hr]

/-! ## The attribute handlers never touch a `Fields` entry -/

theorem handleNeedAppearances_preserves_Fields (cs : Ctx) (s d : Nat) (h h' : Heap) (r : Nat)
    (hok : handleNeedAppearances cs s d h = .ok h') :
    dFind h' r "Fields" = dFind h r "Fields" := by
  unfold handleNeedAppearances at hok
  repeat' split at hok
  all_goals cases hok
  all_goals try rfl
  all_goals apply dFind_dSetKey_ne_key
  all_goals decide

theorem handleSigFields_preserves_Fields (cs cd : Ctx) (s d : Nat) (h h' : Heap) (r : Nat)
    (hok : handleSigFields cs cd s d h = .ok h') :
    dFind h' r "Fields" = dFind h r "Fields" := by
  unfold handleSigFields at hok
  repeat' split at hok
  all_goals cases hok
  all_goals try rfl
  all_goals apply dFind_dSetKey_ne_key
  all_goals decide

theorem handleCO_preserves_Fields (cs cd : Ctx) (s d : Nat) (h h' : Heap) (r : Nat)
    (hok : handleCO cs cd s d h = .ok h') :
    dFind h' r "Fields" = dFind h r "Fields" := by
  unfold handleCO at hok
  repeat' split at hok
  all_goals cases hok
  all_goals try rfl
  all_goals apply dFind_dSetKey_ne_key
  all_goals decide

theorem handleDR_preserves_Fields (cs cd : Ctx) (s d : Nat) (h h' : Heap) (r : Nat)
    (hok : handleDR cs cd s d h = .ok h') :
    dFind h' r "Fields" = dFind h r "Fields" := by
  unfold handleDR at hok
  repeat' split at hok
  all_goals cases hok
  all_goals try rfl
  all_goals apply dFind_dSetKey_ne_key
  all_goals decide

theorem pushDownDA_preserves_Fields (cs : Ctx) (sSrc : String) (l : List Obj)
    (h h' : Heap) (r : Nat) (hok : pushDownDA cs sSrc l h = .ok h') :
    dFind h' r "Fields" = dFind h r "Fields" := by
  induction l generalizing h with
  | nil => unfold pushDownDA at hok; cases hok; rfl
  | cons o rest ih =>
    unfold pushDownDA at hok
    repeat' split at hok
    all_goals first
      | cases hok
      | exact ih _ hok
      | (rw [ih _ hok]; apply dFind_dSetKey_ne_key; decide)

theorem handleDA_preserves_Fields (cs : Ctx) (s d : Nat) (fsrc : List Obj)
    (h h' : Heap) (r : Nat) (hok : handleDA cs s d fsrc h = .ok h') :
    dFind h' r "Fields" = dFind h r "Fields" := by
  unfold handleDA at hok
  repeat' split at hok
  all_goals first
    | cases hok
    | exact pushDownDA_preserves_Fields _ _ _ _ _ _ hok
  all_goals try rfl
  all_goals apply dFind_dSetKey_ne_key
  all_goals decide

theorem pushDownQ_preserves_Fields (cs : Ctx) (iSrc : Int) (l : List Obj)
    (h h' : Heap) (r : Nat) (hok : pushDownQ cs iSrc l h = .ok h') :
    dFind h' r "Fields" = dFind h r "Fields" := by
  induction l generalizing h with
  | nil => unfold pushDownQ at hok; cases hok; rfl
  | cons o rest ih =>
    unfold pushDownQ at hok
    repeat' split at hok
    all_goals first
      | cases hok
      | exact ih _ hok
      | (rw [ih _ hok]; apply dFind_dSetKey_ne_key; decide)

theorem handleQ_preserves_Fields (cs : Ctx) (s d : Nat) (fsrc : List Obj)
    (h h' : Heap) (r : Nat) (hok : handleQ cs s d fsrc h = .ok h') :
    dFind h' r "Fields" = dFind h r "Fields" := by
  unfold handleQ at hok
  repeat' split at hok
  all_goals first
    | cases hok
    | exact pushDownQ_preserves_Fields _ _ _ _ _ _ hok
  all_goals try rfl
  all_goals apply dFind_dSetKey_ne_key
  all_goals decide

theorem handleFormAttributes_preserves_Fields (cs cd : Ctx) (s d : Nat) (fsrc : List Obj)
    (h h' : Heap) (r : Nat) (hok : handleFormAttributes cs cd s d fsrc h = .ok h') :
    dFind h' r "Fields" = dFind h r "Fields" := by
  unfold handleFormAttributes at hok
  cases e1 : handleNeedAppearances cs s d h with
  | error e => simp only [e1] at hok; cases hok
  | ok h1 =>
  simp only [e1] at hok
  cases e2 : handleSigFields cs cd s d h1 with
  | error e => simp only [e2] at hok; cases hok
  | ok h2 =>
  simp only [e2] at hok
  cases e3 : handleCO cs cd s d h2 with
  | error e => simp only [e3] at hok; cases hok
  | ok h3 =>
  simp only [e3] at hok
  cases e4 : handleDR cs cd s d h3 with
  | error e => simp only [e4] at hok; cases hok
  | ok h4 =>
  simp only [e4] at hok
  cases e5 : handleDA cs s d fsrc h4 with
  | error e => simp only [e5] at hok; cases hok
  | ok h5 =>
  simp only [e5] at hok
  cases e6 : handleQ cs s d fsrc h5 with
  | error e => simp only [e6] at hok; cases hok
  | ok h6 =>
  simp only [e6] at hok
  injection hok with hh
  subst hh
  rw [dFind_dDelKey_ne_key h6 r d "Fields" "XFA" (by decide),
    handleQ_preserves_Fields cs s d fsrc h5 h6 r e6,
    handleDA_preserves_Fields cs s d fsrc h4 h5 r e5,
    handleDR_preserves_Fields cs cd s d h3 h4 r e4,
    handleCO_preserves_Fields cs cd s d h2 h3 r e3,
    handleSigFields_preserves_Fields cs cd s d h1 h2 r e2,
    handleNeedAppearances_preserves_Fields cs s d h h1 r e1]

theorem handleFormAttributes_XFA_removed (cs cd : Ctx) (s d : Nat) (fsrc : List Obj)
    (h h' : Heap) (hok : handleFormAttributes cs cd s d fsrc h = .ok h') :
    dFind h' d "XFA" = none := by
  unfold handleFormAttributes at hok
  cases e1 : handleNeedAppearances cs s d h with
  | error e => simp only [e1] at hok; cases hok
  | ok h1 =>
  simp only [e1] at hok
  cases e2 : handleSigFields cs cd s d h1 with
  | error e => simp only [e2] at hok; cases hok
  | ok h2 =>
  simp only [e2] at hok
  cases e3 : handleCO cs cd s d h2 with
  | error e => simp only [e3] at hok; cases hok
  | ok h3 =>
  simp only [e3] at hok
  cases e4 : handleDR cs cd s d h3 with
  | error e => simp only [e4] at hok; cases hok
  | ok h4 =>
  simp only [e4] at hok
  cases e5 : handleDA cs s d fsrc h4 with
  | error e => simp only [e5] at hok; cases hok
  | ok h5 =>
  simp only [e5] at hok
  cases e6 : handleQ cs s d fsrc h5 with
  | error e => simp only [e6] at hok; cases hok
  | ok h6 =>
  simp only [e6] at hok
  injection hok with hh
  subst hh
  exact dFind_dDelKey_self h6 d "XFA"

/-! ## Structural lemmas about the scraper loop -/

/-- The names carried by a loop outcome, whether aborted or completed. -/
def LoopRes.outNames : LoopRes → List String
  | .aborted _ ns => ns
  | .completed _ ns => ns

theorem getAcroLoop_cons_eq (ctx : Ctx) (o : Obj) (rest : List Obj) (h : Heap)
    (acc : List String) :
    getAcroLoop ctx (o :: rest) h acc =
      (match o with
      | .ref n g =>
        match findTableEntryForIndRef ctx n g with
        | none => .ok (.aborted h acc)
        | some e =>
          match e with
          | .dict r =>
            match stringEntry h r "T" with
            | none => .ok (.aborted h acc)
            | some t => getAcroLoop ctx rest (dSetKey h r "V" (.str "STUFF!")) (acc ++ [t])
          | _ => .ok (.aborted h acc)
      | _ => .error .runtimePanic) := rfl

theorem scrapeLoop_file_cons_eq (src : Option Ctx) (rest : List InputFile) (h : Heap)
    (names : List String) :
    scrapeLoop (.file src :: rest) h names =
      (match getAcro src h names with
      | .error e => .error e
      | .ok out =>
        match scrapeLoop rest out.heap out.names with
        | .error e => .error e
        | .ok (h2, ns2, ws2) => .ok (h2, ns2, out.writes ++ ws2)) := rfl

theorem getAcroLoop_append_completed (ctx : Ctx) (xs ys : List Obj) (h h1 : Heap)
    (acc ns1 : List String)
    (hxs : getAcroLoop ctx xs h acc = .ok (.completed h1 ns1)) :
    getAcroLoop ctx (xs ++ ys) h acc = getAcroLoop ctx ys h1 ns1 := by
  induction xs generalizing h acc with
  | nil =>
    unfold getAcroLoop at hxs
    injection hxs with hx
    injection hx with hh hn
    subst hh; subst hn
    rfl
  | cons o rest ih =>
    rw [List.cons_append]
    rw [getAcroLoop_cons_eq] at hxs
    rw [getAcroLoop_cons_eq]
    cases o with
    | ref n g =>
      cases hte : findTableEntryForIndRef ctx n g with
      | none => simp [hte] at hxs
      | some e =>
        simp only [hte] at hxs ⊢
        cases e with
        | dict r =>
          cases hse : stringEntry h r "T" with
          | none => simp [hse] at hxs
          | some t =>
            simp only [hse] at hxs ⊢
            exact ih _ _ hxs
        | arr l => simp at hxs
        | name s => simp at hxs
        | str s => simp at hxs
        | int i => simp at hxs
        | bool b => simp at hxs
        | ref n2 g2 => simp at hxs
        | null => simp at hxs
    | dict r => simp at hxs
    | arr l => simp at hxs
    | name s => simp at hxs
    | str s => simp at hxs
    | int i => simp at hxs
    | bool b => simp at hxs
    | null => simp at hxs

theorem getAcroLoop_anomaly_abort (ctx : Ctx) (h : Heap) (acc : List String)
    (o : Obj) (rest : List Obj) (ha : fieldAnomaly ctx h o = true) :
    getAcroLoop ctx (o :: rest) h acc = .ok (.aborted h acc) := by
  unfold fieldAnomaly at ha
  unfold getAcroLoop
  repeat' split
  all_goals simp_all

theorem getAcroLoop_names_extend (ctx : Ctx) (l : List Obj) (h : Heap)
    (acc : List String) (res : LoopRes)
    (hr : getAcroLoop ctx l h acc = .ok res) :
    ∃ t, res.outNames = acc ++ t := by
  induction l generalizing h acc with
  | nil =>
    unfold getAcroLoop at hr
    injection hr with hx
    subst hx
    exact ⟨[], by simp [LoopRes.outNames]⟩
  | cons o rest ih =>
    rw [getAcroLoop_cons_eq] at hr
    cases o with
    | ref n g =>
      cases hte : findTableEntryForIndRef ctx n g with
      | none =>
        simp only [hte] at hr
        injection hr with hx
        subst hx
        exact ⟨[], by simp [LoopRes.outNames]⟩
      | some e =>
        simp only [hte] at hr
        cases e with
        | dict r =>
          cases hse : stringEntry h r "T" with
          | none =>
            simp only [hse] at hr
            injection hr with hx
            subst hx
            exact ⟨[], by simp [LoopRes.outNames]⟩
          | some t =>
            simp only [hse] at hr
            obtain ⟨t2, ht2⟩ := ih _ _ hr
            exact ⟨t :: t2, by simp [ht2]⟩
        | arr l2 =>
          simp only [] at hr
          injection hr with hx
          subst hx
          exact ⟨[], by simp [LoopRes.outNames]⟩
        | name s =>
          simp only [] at hr
          injection hr with hx
          subst hx
          exact ⟨[], by simp [LoopRes.outNames]⟩
        | str s =>
          simp only [] at hr
          injection hr with hx
          subst hx
          exact ⟨[], by simp [LoopRes.outNames]⟩
        | int i =>
          simp only [] at hr
          injection hr with hx
          subst hx
          exact ⟨[], by simp [LoopRes.outNames]⟩
        | bool b =>
          simp only [] at hr
          injection hr with hx
          subst hx
          exact ⟨[], by simp [LoopRes.outNames]⟩
        | ref n2 g2 =>
          simp only [] at hr
          injection hr with hx
          subst hx
          exact ⟨[], by simp [LoopRes.outNames]⟩
        | null =>
          simp only [] at hr
          injection hr with hx
          subst hx
          exact ⟨[], by simp [LoopRes.outNames]⟩
    | dict r => simp at hr
    | arr l2 => simp at hr
    | name s => simp at hr
    | str s => simp at hr
    | int i => simp at hr
    | bool b => simp at hr
    | null => simp at hr

theorem getAcro_names_extend (src : Option Ctx) (h : Heap) (acc : List String)
    (out : AcroOut) (hok : getAcro src h acc = .ok out) :
    ∃ t, out.names = acc ++ t := by
  cases src with
  | none =>
    unfold getAcro at hok
    injection hok with hh
    subst hh
    exact ⟨[], by simp⟩
  | some ctx =>
    unfold getAcro at hok
    cases hc : catalog ctx h with
    | error e =>
      simp only [hc] at hok
      injection hok with hh
      subst hh
      exact ⟨[], by simp⟩
    | ok cat =>
      simp only [hc] at hok
      cases haf : dFind h cat "AcroForm" with
      | none =>
        simp only [haf] at hok
        injection hok with hh
        subst hh
        exact ⟨[], by simp⟩
      | some o =>
        simp only [haf] at hok
        cases hdd : dereferenceDict ctx o with
        | error e =>
          simp only [hdd] at hok
          injection hok with hh
          subst hh
          exact ⟨[], by simp⟩
        | ok adictOpt =>
          simp only [hdd] at hok
          cases hloop : getAcroLoop ctx (acroFieldsArray h adictOpt) h acc with
          | error e => simp only [hloop] at hok; cases hok
          | ok res =>
            obtain ⟨t, ht⟩ := getAcroLoop_names_extend ctx _ h acc res hloop
            cases res with
            | aborted h1 ns =>
              simp only [hloop] at hok
              injection hok with hh
              subst hh
              exact ⟨t, ht⟩
            | completed h1 ns =>
              simp only [hloop] at hok
              injection hok with hh
              subst hh
              exact ⟨t, ht⟩

theorem scrapeLoop_names_extend (files : List InputFile) (h h2 : Heap)
    (acc ns2 : List String) (ws : List (String × String))
    (hok : scrapeLoop files h acc = .ok (h2, ns2, ws)) :
    ∃ t, ns2 = acc ++ t := by
  induction files generalizing h acc ws with
  | nil =>
    unfold scrapeLoop at hok
    injection hok with hh
    injection hh with hh1 hr
    injection hr with hn hw
    exact ⟨[], by simp [← hn]⟩
  | cons f rest ih =>
    unfold scrapeLoop at hok
    cases f with
    | openFail => exact ih _ _ _ hok
    | invalid => exact ih _ _ _ hok
    | file src =>
      cases hga : getAcro src h acc with
      | error e => simp only [hga] at hok; cases hok
      | ok out =>
        simp only [hga] at hok
        cases hsc : scrapeLoop rest out.heap out.names with
        | error e => simp only [hsc] at hok; cases hok
        | ok tri =>
          obtain ⟨h3, ns3, ws3⟩ := tri
          simp only [hsc] at hok
          injection hok with hh
          injection hh with hh1 hr
          injection hr with hn hw
          subst hh1
          subst hn
          obtain ⟨t1, ht1⟩ := getAcro_names_extend _ _ _ _ hga
          obtain ⟨t2, ht2⟩ := ih _ _ _ hsc
          exact ⟨t1 ++ t2, by rw [ht2, ht1]; simp⟩

/-! ## Reduction of the merger on the full-merge path -/

theorem mergeAcroForms_full_path
    (ctxSource ctxDest : Ctx) (h : Heap)
    (dS dD sRec dRec : DictVal) (aS aD : Nat) (fs fd : List Obj)
    (hcatD : hGet h ctxDest.root = some dD)
    (hcatS : hGet h ctxSource.root = some dS)
    (haS : dGet dS "AcroForm" = some (.dict aS))
    (hsrec : hGet h aS = some sRec)
    (hsne : sRec ≠ [])
    (hsf : dGet sRec "Fields" = some (.arr fs))
    (hfsne : fs ≠ [])
    (haD : dGet dD "AcroForm" = some (.dict aD))
    (hdrec : hGet h aD = some dRec)
    (hdne : dRec ≠ [])
    (hdf : dGet dRec "Fields" = some (.arr fd))
    (hfdne : fd ≠ []) :
    mergeAcroForms ctxSource ctxDest h =
      handleFormAttributes ctxSource ctxDest aS aD fs
        (dSetKey h aD "Fields" (.arr (fd ++ fs))) := by
  unfold mergeAcroForms catalog
  simp only [hcatD, hcatS, dFind, Option.bind_eq_bind, Option.some_bind, haS,
    dereferenceDict, dereference, dereferenceArray, dictLen, hsrec, Option.getD_some,
    List.length_eq_zero, hsne, if_false, hsf, haD, hdrec, hdne, hdf,
    hfsne, hfdne]

/-! ## Claim theorems -/

/-- Claim C8: merging a source document whose Catalog has no `AcroForm`
entry into any destination returns success and leaves the destination
document's object graph structurally unchanged — `mergeAcroForms`
returns the very heap it was given, so every dictionary of the
destination, its AcroForm included, is untouched (the cross-reference
tables are never written by the merger at all). -/
theorem mergeAcroForms_no_source_acroform_noop
    (ctxSource ctxDest : Ctx) (h : Heap) (dS dD : DictVal)
    (hcatD : hGet h ctxDest.root = some dD)
    (hcatS : hGet h ctxSource.root = some dS)
    (hno : dGet dS "AcroForm" = none) :
    mergeAcroForms ctxSource ctxDest h = .ok h := by
  unfold mergeAcroForms catalog
  simp only [hcatD, hcatS, dFind, Option.some_bind, hno]

/-- Claim C5: for a merge in which the destination AcroForm carries a
non-empty `Fields` array `fd` (N entries) and the source AcroForm a
non-empty `Fields` array `fs` (M entries), a successful `mergeAcroForms`
leaves the destination's `Fields` entry equal to `fd ++ fs`: exactly
N + M entries, the first N the original destination entries in order,
the last M the source entries in order. -/
theorem mergeAcroForms_fields_union
    (ctxSource ctxDest : Ctx) (h h' : Heap)
    (dS dD sRec dRec : DictVal) (aS aD : Nat) (fs fd : List Obj)
    (hcatD : hGet h ctxDest.root = some dD)
    (hcatS : hGet h ctxSource.root = some dS)
    (haS : dGet dS "AcroForm" = some (.dict aS))
    (hsrec : hGet h aS = some sRec)
    (hsne : sRec ≠ [])
    (hsf : dGet sRec "Fields" = some (.arr fs))
    (hfsne : fs ≠ [])
    (haD : dGet dD "AcroForm" = some (.dict aD))
    (hdrec : hGet h aD = some dRec)
    (hdne : dRec ≠ [])
    (hdf : dGet dRec "Fields" = some (.arr fd))
    (hfdne : fd ≠ [])
    (hmerge : mergeAcroForms ctxSource ctxDest h = .ok h') :
    dFind h' aD "Fields" = some (.arr (fd ++ fs)) ∧
    (fd ++ fs).length = fd.length + fs.length := by
  rw [mergeAcroForms_full_path ctxSource ctxDest h dS dD sRec dRec aS aD fs fd
    hcatD hcatS haS hsrec hsne hsf hfsne haD hdrec hdne hdf hfdne] at hmerge
  constructor
  · rw [handleFormAttributes_preserves_Fields ctxSource ctxDest aS aD fs _ h' aD hmerge]
    exact dFind_dSetKey_self h aD "Fields" (.arr (fd ++ fs)) dRec hdrec
  · exact List.length_append fd fs

/-- Claim C3 (amended): `XFA` is dropped from the destination AcroForm
whenever the merge reaches the attribute-merging step, i.e. when both the
source and the destination AcroForms carry non-empty `Fields` arrays and
the merge succeeds.  (In the no-op and wholesale-replacement paths the
merger returns before `handleFormAttributes`, so an `XFA` entry survives
there — see the counterexample.) -/
theorem mergeAcroForms_full_merge_drops_XFA
    (ctxSource ctxDest : Ctx) (h h' : Heap)
    (dS dD sRec dRec : DictVal) (aS aD : Nat) (fs fd : List Obj)
    (hcatD : hGet h ctxDest.root = some dD)
    (hcatS : hGet h ctxSource.root = some dS)
    (haS : dGet dS "AcroForm" = some (.dict aS))
    (hsrec : hGet h aS = some sRec)
    (hsne : sRec ≠ [])
    (hsf : dGet sRec "Fields" = some (.arr fs))
    (hfsne : fs ≠ [])
    (haD : dGet dD "AcroForm" = some (.dict aD))
    (hdrec : hGet h aD = some dRec)
    (hdne : dRec ≠ [])
    (hdf : dGet dRec "Fields" = some (.arr fd))
    (hfdne : fd ≠ [])
    (hmerge : mergeAcroForms ctxSource ctxDest h = .ok h') :
    dFind h' aD "XFA" = none := by
  rw [mergeAcroForms_full_path ctxSource ctxDest h dS dD sRec dRec aS aD fs fd
    hcatD hcatS haS hsrec hsne hsf hfsne haD hdrec hdne hdf hfdne] at hmerge
  exact handleFormAttributes_XFA_removed ctxSource ctxDest aS aD fs _ h' hmerge

/-- Claim C2 (amended): a field whose indirect reference has no
cross-reference table entry, or resolves to a non-Dictionary, or whose
dictionary lacks a `T` entry, is logged and makes `getAcro` return 0
immediately, abandoning the remaining fields of that document (here the
anomaly sits at the head of the `Fields` array and nothing is scraped);
the batch loop of `scrape` nevertheless continues with the next document
exactly as if this document had contributed nothing. -/
theorem scraper_field_anomaly_aborts_fields_not_batch
    (ctx : Ctx) (h : Heap) (cat : DictVal) (aR : Nat) (acc : List String)
    (o : Obj) (rest : List Obj) (ds : List InputFile)
    (hcat : hGet h ctx.root = some cat)
    (hacro : dGet cat "AcroForm" = some (.dict aR))
    (hfields : arrayEntry h aR "Fields" = o :: rest)
    (hbad : fieldAnomaly ctx h o = true) :
    getAcro (some ctx) h acc = .ok ⟨h, acc, [], 0⟩ ∧
    scrapeLoop (.file (some ctx) :: ds) h acc = scrapeLoop ds h acc := by
  have hga : getAcro (some ctx) h acc = .ok ⟨h, acc, [], 0⟩ := by
    unfold getAcro catalog
    simp only [hcat, dFind, Option.some_bind, hacro, dereferenceDict, dereference]
    have hfa : acroFieldsArray h (some aR) = o :: rest := hfields
    rw [hfa, getAcroLoop_anomaly_abort ctx h acc o rest hbad]
  refine ⟨hga, ?_⟩
  rw [scrapeLoop_file_cons_eq]
  simp only [hga]
  cases hsc : scrapeLoop ds h acc with
  | error e => rfl
  | ok tri =>
    obtain ⟨a, b, c⟩ := tri
    rfl

/-- Claim C10: when `getAcro` aborts a document at an anomalous field
after having successfully processed the earlier fields (which produced
the names `ns`), the names already extracted stay in the shared
accumulator (`acc ++ ns` is returned), no write is performed for that
document (`writes = []`, return code 0), and the rest of the batch only
ever appends to that list, so the overall result retains this prefix. -/
theorem getAcro_abort_retains_names_skips_write
    (ctx : Ctx) (h h1 : Heap) (cat : DictVal) (aR : Nat)
    (good rest : List Obj) (bad : Obj) (acc ns : List String)
    (ds : List InputFile) (h2 : Heap) (ns2 : List String) (ws : List (String × String))
    (hcat : hGet h ctx.root = some cat)
    (hacro : dGet cat "AcroForm" = some (.dict aR))
    (hfields : arrayEntry h aR "Fields" = good ++ bad :: rest)
    (hloop : getAcroLoop ctx good h acc = .ok (.completed h1 (acc ++ ns)))
    (hbad : fieldAnomaly ctx h1 bad = true)
    (hrest : scrapeLoop ds h1 (acc ++ ns) = .ok (h2, ns2, ws)) :
    getAcro (some ctx) h acc = .ok ⟨h1, acc ++ ns, [], 0⟩ ∧
    ∃ t, ns2 = (acc ++ ns) ++ t := by
  constructor
  · unfold getAcro catalog
    simp only [hcat, dFind, Option.some_bind, hacro, dereferenceDict, dereference]
    have hfa : acroFieldsArray h (some aR) = good ++ bad :: rest := hfields
    rw [hfa, getAcroLoop_append_completed ctx good (bad :: rest) h h1 acc (acc ++ ns) hloop,
      getAcroLoop_anomaly_abort ctx h1 (acc ++ ns) bad rest hbad]
  · exact scrapeLoop_names_extend ds h1 h2 (acc ++ ns) ns2 ws hrest

/-- Claim C1: with destination `SigFlags = 2` and source `SigFields = 1`
the merged destination is claimed to end with flags 3.  The code however
performs the bitwise OR on a dereferenced copy (`*iDest |= 1` writes
through a pointer to a fresh `Integer`), so after a full merge the
destination's `SigFlags` is still 2 and no `SigFields` integer was
stored either — the claimed OR result 3 appears nowhere. -/
theorem mergeAcroForms_sigflags_or_lost :
    mergeAcroForms ctxC1s ctxC1d hC1 = .ok hC1out ∧
    dFind hC1out 1 "SigFlags" = some (.int 2) ∧
    dFind hC1out 1 "SigFields" = none :=
  ⟨rfl, rfl, rfl⟩

/-- Claim C2 counterexample: the first field of `hC2` has a dangling
reference, the second is perfectly well-formed with name `"good"`; the
claim says the bad field is skipped and scraping continues, so `"good"`
should be extracted — but `getAcro` returns 0 with an empty name list,
never reaching the second field. -/
theorem getAcro_no_per_field_skip :
    getAcro (some ctxC2) hC2 [] = .ok ⟨hC2, [], [], 0⟩ ∧
    stringEntry hC2 5 "T" = some "good" :=
  ⟨rfl, rfl⟩

/-- Claim C2 witness: the amended abort behaviour on the concrete
document `hC2`. -/
theorem scraper_field_anomaly_aborts_fields_not_batch_witness :
    fieldAnomaly ctxC2 hC2 (.ref 10 0) = true ∧
    getAcro (some ctxC2) hC2 [] = .ok ⟨hC2, [], [], 0⟩ ∧
    scrapeLoop [.file (some ctxC2)] hC2 [] = scrapeLoop [] hC2 [] := by
  have hh := scraper_field_anomaly_aborts_fields_not_batch ctxC2 hC2
    [("AcroForm", .dict 1)] 1 [] (.ref 10 0) [.ref 11 0] [] rfl rfl rfl rfl
  exact ⟨rfl, hh.1, hh.2⟩

/-- Claim C3 counterexample: the destination AcroForm of `hC3` carries an
`XFA` entry and the source has no AcroForm; the merge succeeds as a
no-op and the `XFA` entry survives, contradicting the claim that `XFA`
never survives a successful merge. -/
theorem mergeAcroForms_noop_keeps_XFA :
    mergeAcroForms ctxC3s ctxC3d hC3 = .ok hC3 ∧
    dFind hC3 1 "XFA" = some (.str "xfa-data") :=
  ⟨rfl, rfl⟩

/-- Claim C3 witness: on the concrete full-merge fixture the destination
started with an `XFA` entry and ends without one. -/
theorem mergeAcroForms_full_merge_drops_XFA_witness :
    dFind hC3w 1 "XFA" = some (.str "xfa-data") ∧
    mergeAcroForms ctxC3ws ctxC3wd hC3w = .ok hC3wOut ∧
    dFind hC3wOut 1 "XFA" = none := by
  have hh := mergeAcroForms_full_merge_drops_XFA ctxC3ws ctxC3wd hC3w hC3wOut
    [("AcroForm", .dict 3)] [("AcroForm", .dict 1)]
    [("Fields", .arr [.ref 20 0])]
    [("Fields", .arr [.ref 10 0]), ("XFA", .str "xfa-data")]
    3 1 [.ref 20 0] [.ref 10 0]
    rfl rfl rfl rfl (by simp) rfl (by simp) rfl rfl (by simp) rfl (by simp) rfl
  exact ⟨rfl, rfl, hh⟩

/-- Claim C4: the source AcroForm's `Fields` entry of `hC4` is the
indirect reference (7, 0), present only in the source document's table.
The merger dereferences it with `ctxDest.DereferenceArray` (source line
323), so the merge fails with a dereference error even though the very
same reference resolves fine against the source's own table — the claim
that every dereference uses the owning document's table is violated. -/
theorem mergeAcroForms_src_fields_deref_wrong_table :
    mergeAcroForms ctxC4s ctxC4d hC4 = .error .derefFailed ∧
    dereferenceArray ctxC4s (.ref 7 0) = .ok (some [.ref 20 0]) :=
  ⟨rfl, rfl⟩

/-- Claim C5 witness: the union property at the one-field-each fixture. -/
theorem mergeAcroForms_fields_union_witness :
    mergeAcroForms ctxC5s ctxC5d hC5 = .ok hC5out ∧
    dFind hC5out 1 "Fields" = some (.arr ([.ref 10 0] ++ [.ref 20 0])) ∧
    ([(.ref 10 0 : Obj)] ++ [(.ref 20 0 : Obj)]).length =
      [(.ref 10 0 : Obj)].length + [(.ref 20 0 : Obj)].length := by
  have hh := mergeAcroForms_fields_union ctxC5s ctxC5d hC5 hC5out
    [("AcroForm", .dict 3)] [("AcroForm", .dict 1)]
    [("Fields", .arr [.ref 20 0])] [("Fields", .arr [.ref 10 0])]
    3 1 [.ref 20 0] [.ref 10 0]
    rfl rfl rfl rfl (by simp) rfl (by simp) rfl rfl (by simp) rfl (by simp) rfl
  exact ⟨rfl, hh.1, hh.2⟩

/-- Claim C6: the destination AcroForm's `DR` dereferences to the empty
dictionary 6 and the source offers the non-empty `DR` dictionary 7.  The
claim says the destination AcroForm's `DR` entry becomes dictionary 7
wholesale; instead, because the Go code shadows `dDest` with the inner
dictionary, the AcroForm's `DR` entry still points at dictionary 6,
which now contains the source resources under a nested `DR` key. -/
theorem handleDR_empty_dest_DR_not_replaced :
    handleDR ctxC6s ctxC6d 3 1 hC6 = .ok hC6out ∧
    dFind hC6out 1 "DR" = some (.dict 6) ∧
    dFind hC6out 6 "DR" = some (.dict 7) :=
  ⟨rfl, rfl, rfl⟩

/-- Claim C7: scraping the read-only document `hC7` is claimed to involve
no field mutation and no write; the code nevertheless stamps
`V = "STUFF!"` into the field dictionary and re-serializes the document
to the hardcoded `./tezzting.pdf` (no caller-specified name exists). -/
theorem getAcro_always_writes_and_mutates :
    getAcro (some ctxC7) hC7 [] = .ok outC7 ∧
    outC7.names = ["name1"] ∧
    outC7.writes = [(".", "tezzting.pdf")] ∧
    outC7.ret = 1 ∧
    dFind outC7.heap 4 "V" = some (.str "STUFF!") :=
  ⟨rfl, rfl, rfl, rfl, rfl⟩

/-- Claim C8 witness: the no-op merge at the concrete fixture. -/
theorem mergeAcroForms_no_source_acroform_noop_witness :
    dGet [("Type", Obj.name "Catalog")] "AcroForm" = none ∧
    mergeAcroForms ctxC8s ctxC8d hC8 = .ok hC8 :=
  ⟨rfl, mergeAcroForms_no_source_acroform_noop ctxC8s ctxC8d hC8
    [("Type", .name "Catalog")] [("AcroForm", .dict 1)] rfl rfl rfl⟩

/-- Claim C9: the spec's scenario.  After merging `hC9`: the destination
`Fields` is `[f1, f2]`; the destination's `DA` is still
`"/Helv 0 Tf 0 g"`; the source text field f2 (dict 5) gained
`DA = "/Cour 0 Tf 0 g"` by push-down; and the destination adopted
`Q = 1`. -/
theorem mergeAcroForms_da_q_pushdown_scenario :
    mergeAcroForms ctxC9s ctxC9d hC9 = .ok hC9out ∧
    dFind hC9out 1 "Fields" = some (.arr [.ref 10 0, .ref 20 0]) ∧
    stringEntry hC9out 1 "DA" = some "/Helv 0 Tf 0 g" ∧
    dFind hC9out 5 "DA" = some (.str "/Cour 0 Tf 0 g") ∧
    dFind hC9out 1 "Q" = some (.int 1) :=
  ⟨rfl, rfl, rfl, rfl, rfl⟩

/-- Claim C10 witness: scraping `hC10` extracts `"a"` from the first
field, aborts at the dangling second reference, keeps `"a"` in the
result and performs no write. -/
theorem getAcro_abort_retains_names_skips_write_witness :
    fieldAnomaly ctxC10 (dSetKey hC10 6 "V" (.str "STUFF!")) (.ref 13 0) = true ∧
    getAcro (some ctxC10) hC10 [] =
      .ok ⟨dSetKey hC10 6 "V" (.str "STUFF!"), [] ++ ["a"], [], 0⟩ :=
  ⟨rfl, (getAcro_abort_retains_names_skips_write ctxC10 hC10
    (dSetKey hC10 6 "V" (.str "STUFF!")) [("AcroForm", .dict 1)] 1
    [.ref 12 0] [] (.ref 13 0) [] ["a"] []
    (dSetKey hC10 6 "V" (.str "STUFF!")) ["a"] []
    rfl rfl rfl rfl rfl rfl).1⟩

end GoPdf
